import Mathlib

/-!
Verification of the tix-go reservation core.

This file shallowly embeds the reservation pipeline of the tix-go
event-ticketing service: the Postgres-backed reservation repository
(`holdSeatsCore`, `confirmHoldCore`, `cancelHoldCore`, `ExpireHolds`),
the reservation service layer (`CreateHold`, `Confirm`, `Cancel`,
`Expire`, `clampTTL`, the config normalization performed by `New`),
the HTTP error mapping (`respondErr`) and the create-hold handler with
its idempotency protocol, the Redis read-through cache helper
(`GetOrSetJSON`), the sliding-window rate limiter Lua script, and the
ETag-writing response helper (`writeJSONWithCache`, with a concrete
SHA-256).

Database rows are modelled as Lean structures, tables as lists of rows,
and each SQL statement as the corresponding pure list transformation.
Go `int64` values become `Int`; timestamps become `Int` instants;
`uuid` values become `Nat` identifiers supplied by the caller together
with freshness hypotheses (the code draws them from `uuid.New`).
A transaction that returns an error rolls back, which is modelled by
returning the original state alongside the error.
-/

namespace TixGo

/-- Seat status enum (`seat_status` in the schema). -/
inductive SeatStatus where
  | available
  | held
  | sold
deriving DecidableEq, Repr

/-- One row of the `event_seats` table. -/
structure EventSeat where
  eventId : Int
  seatId : Int
  status : SeatStatus
  holdId : Option Nat
  holdExpiresAt : Option Int
deriving DecidableEq, Repr

/-- One row of the `holds` table (`created_at` is never read by the core). -/
structure HoldRow where
  id : Nat
  eventId : Int
  userId : Int
  expiresAt : Int
deriving DecidableEq, Repr

/-- One row of the `orders` table. -/
structure OrderRow where
  id : Nat
  eventId : Int
  userId : Int
  totalCents : Int
deriving DecidableEq, Repr

/-- One row of the `tickets` table. -/
structure TicketRow where
  id : Nat
  orderId : Nat
  eventId : Int
  seatId : Int
deriving DecidableEq, Repr

/-- The authoritative database state: the four tables the reservation
pipeline touches. -/
structure DBState where
  eventSeats : List EventSeat
  holds : List HoldRow
  orders : List OrderRow
  tickets : List TicketRow
deriving DecidableEq, Repr

/-- Repository-level error kinds (`internal/repository/errors.go`). -/
inductive RepoError where
  | notFound
  | conflict
  | seatsUnavailable
  | holdExpired
  | nothingToConfirm
deriving DecidableEq, Repr

/-- `SELECT ... WHERE status = 'held' AND hold_expires_at <= now()` guard on
one row: the stored expiry, when set, has elapsed. -/
def expElapsed (o : Option Int) (now : Int) : Bool :=
  match o with
  | some t => t ≤ now
  | none => false

/-- Reset one `event_seats` row to available, clearing hold id and expiry
(the `SET status = 'available', hold_id = NULL, hold_expires_at = NULL`
assignment used by reconcile, cancel and expire). -/
def resetSeat (r : EventSeat) : EventSeat :=
  { r with status := .available, holdId := none, holdExpiresAt := none }

/-- Step (a) of `holdSeatsCore`: reconcile expired holds for this event —
`UPDATE event_seats SET status='available', hold_id=NULL,
hold_expires_at=NULL WHERE event_id=$1 AND status='held' AND
hold_expires_at <= now()`. -/
def reconcileExpired (eventId : Int) (now : Int) (rows : List EventSeat) :
    List EventSeat :=
  rows.map fun r =>
    if r.eventId = eventId ∧ r.status = .held ∧ expElapsed r.holdExpiresAt now
    then resetSeat r else r

/-- The row predicate of step (c) of `holdSeatsCore`:
`event_id = $1 AND seat_id = ANY($2) AND status = 'available'`. -/
def holdTarget (eventId : Int) (seatIds : List Int) (r : EventSeat) : Bool :=
  r.eventId = eventId ∧ r.seatId ∈ seatIds ∧ r.status = .available

/-- `holdSeatsCore` (postgres/reservation.go): reconcile expired rows of the
event, insert a fresh `holds` row expiring at `now + ttl`, mark the requested
available seats held, and fail with `ErrSeatsUnavailable` when the number of
updated rows differs from `len(seatIDs)`.  The fresh `uuid.New()` hold id is
the `holdId` argument; inserting a duplicate primary key is the unique
violation translated to `ErrConflict`. -/
def holdSeatsCore (now : Int) (eventId userId : Int) (seatIds : List Int)
    (ttl : Int) (holdId : Nat) (st : DBState) :
    Except RepoError (DBState × Nat) :=
  let seats1 := reconcileExpired eventId now st.eventSeats
  if st.holds.any (fun h => h.id = holdId) then .error .conflict
  else
    let holds1 := st.holds ++ [⟨holdId, eventId, userId, now + ttl⟩]
    let affected := seats1.countP (holdTarget eventId seatIds)
    let seats2 := seats1.map fun r =>
      if holdTarget eventId seatIds r
      then { r with status := .held, holdId := some holdId,
                    holdExpiresAt := some (now + ttl) }
      else r
    if affected ≠ seatIds.length then .error .seatsUnavailable
    else .ok ({ st with eventSeats := seats2, holds := holds1 }, holdId)

/-- `ReservationRepo.HoldSeats` run in its own serializable transaction:
on any error of the core the transaction rolls back and the database state
is unchanged. -/
def holdSeats (now : Int) (eventId userId : Int) (seatIds : List Int)
    (ttl : Int) (holdId : Nat) (st : DBState) :
    DBState × Except RepoError Nat :=
  match holdSeatsCore now eventId userId seatIds ttl holdId st with
  | .ok (st', h) => (st', .ok h)
  | .error e => (st, .error e)

/-- `confirmHoldCore` (postgres/reservation.go): read the hold with
`expires_at > now()` (absent ⇒ `ErrHoldExpired`); set every `event_seats`
row carrying the hold id to sold, returning the seat ids (empty ⇒
`ErrNothingToConfirm`); insert the order; insert one ticket per seat —
the `(event_id, seat_id)` unique constraint and both primary keys raise
unique violations translated to `ErrConflict`; finally delete the hold row
(errors of this last statement are discarded by the code).  Fresh
`uuid.New()` values are the `orderId` argument and `ticketId j` for the
`j`-th ticket. -/
def confirmHoldCore (now : Int) (holdId : Nat) (totalCents : Int)
    (orderId : Nat) (ticketId : Nat → Nat) (st : DBState) :
    Except RepoError (DBState × Nat) :=
  match st.holds.find? (fun h => h.id = holdId ∧ now < h.expiresAt) with
  | none => .error .holdExpired
  | some hold =>
    let soldPred : EventSeat → Bool := fun r => r.holdId = some holdId
    let seatIds := (st.eventSeats.filter soldPred).map (·.seatId)
    let seats1 := st.eventSeats.map fun r =>
      if soldPred r
      then { r with status := .sold, holdId := none, holdExpiresAt := none }
      else r
    if seatIds.length = 0 then .error .nothingToConfirm
    else if st.orders.any (fun o => o.id = orderId) then .error .conflict
    else
      let orders1 :=
        st.orders ++ [⟨orderId, hold.eventId, hold.userId, totalCents⟩]
      let newTickets := (List.range seatIds.length).zip seatIds |>.map
        fun (j, sid) => TicketRow.mk (ticketId j) orderId hold.eventId sid
      if (st.tickets ++ newTickets).any (fun t =>
          ((st.tickets ++ newTickets).countP
            (fun u => u.eventId = t.eventId ∧ u.seatId = t.seatId)) ≠ 1 ∨
          ((st.tickets ++ newTickets).countP (fun u => u.id = t.id)) ≠ 1)
      then .error .conflict
      else
        let holds1 := st.holds.filter (fun h => ¬ h.id = holdId)
        .ok ({ st with eventSeats := seats1, holds := holds1,
                       orders := orders1,
                       tickets := st.tickets ++ newTickets },
             orderId)

/-- `cancelHoldCore` (postgres/reservation.go): set every `event_seats` row
whose `hold_id` matches to available (no expiry guard, no event filter),
then `DELETE FROM holds WHERE id = $1`; zero deleted rows ⇒ `ErrNotFound`. -/
def cancelHoldCore (holdId : Nat) (st : DBState) :
    Except RepoError DBState :=
  let seats1 := st.eventSeats.map fun r =>
    if r.holdId = some holdId then resetSeat r else r
  let deleted := st.holds.countP (fun h => h.id = holdId)
  let holds1 := st.holds.filter (fun h => ¬ h.id = holdId)
  if deleted = 0 then .error .notFound
  else .ok { st with eventSeats := seats1, holds := holds1 }

/-- The row predicate of `ExpireHolds`' first UPDATE:
`status = 'held' AND hold_expires_at <= now()`. -/
def expiredSeat (now : Int) (r : EventSeat) : Bool :=
  r.status = .held ∧ expElapsed r.holdExpiresAt now

/-- `ReservationRepo.ExpireHolds`: `UPDATE event_seats SET
status='available', hold_id=NULL, hold_expires_at=NULL WHERE status='held'
AND hold_expires_at <= now()` counting the affected rows, then
`DELETE FROM holds WHERE expires_at <= now()`; returns the count of the
first statement only. -/
def expireHolds (now : Int) (st : DBState) : DBState × Int :=
  let released := st.eventSeats.countP (expiredSeat now)
  let seats1 := st.eventSeats.map fun r =>
    if expiredSeat now r then resetSeat r else r
  let holds1 := st.holds.filter (fun h => ¬ h.expiresAt ≤ now)
  ({ st with eventSeats := seats1, holds := holds1 }, (released : Int))

/-- `QueryRepo.EventIDByHold`: `SELECT event_id FROM holds WHERE id = $1`
(no expiry guard); no row ⇒ `ErrNotFound`. -/
def eventIDByHold (holdId : Nat) (st : DBState) : Except RepoError Int :=
  match st.holds.find? (fun h => h.id = holdId) with
  | none => .error .notFound
  | some h => .ok h.eventId

/-! ## Reservation service (`internal/service/reservation/service.go`) -/

/-- Service-level error kinds.  The sentinel errors of the reservation
service plus the two non-sentinel failures it produces (`no seats
selected`, `total must be positive`, `rate limited`) and a passthrough
constructor for repository errors the service forwards unmapped
(`return fmt.Errorf("%s:%w", op, err)`). -/
inductive SvcError where
  | seatsUnavailable
  | holdConflict
  | holdNotFound
  | holdExpired
  | eventNotFound
  | rateLimited (retry : Int)
  | invalidInput
  | repo (e : RepoError)
deriving DecidableEq, Repr

/-- Service configuration; durations are Go `time.Duration` values,
i.e. nanosecond counts. -/
structure Config where
  minHoldTTL : Int
  maxHoldTTL : Int
deriving DecidableEq, Repr

/-- The config normalization performed by `reservation.New`: a
non-positive `MinHoldTTL` defaults to 15 s; then a `MaxHoldTTL` that is
non-positive or below the (updated) `MinHoldTTL` defaults to 5 min. -/
def newConfig (cfg : Config) : Config :=
  let m := if cfg.minHoldTTL ≤ 0 then 15000000000 else cfg.minHoldTTL
  let M := if cfg.maxHoldTTL ≤ 0 ∨ cfg.maxHoldTTL < m
           then 300000000000 else cfg.maxHoldTTL
  ⟨m, M⟩

/-- `Service.clampTTL`: return `MinHoldTTL` when `ttl < MinHoldTTL`,
else `MaxHoldTTL` when `ttl > MaxHoldTTL`, else `ttl`. -/
def clampTTL (cfg : Config) (ttl : Int) : Int :=
  if ttl < cfg.minHoldTTL then cfg.minHoldTTL
  else if cfg.maxHoldTTL < ttl then cfg.maxHoldTTL
  else ttl

/-- `Service.CreateHold`.  `cfg` is the service's stored (already
normalized) config.  The rate-limiter consultation is abstracted by
`rl`: `none` models a nil limiter or empty rate-limit key, `some (ok,
retry)` the limiter's verdict.  The unit-of-work transaction rolls back
on error (state unchanged); the after-commit cache-invalidation and
pub/sub hooks touch neither table and are not modelled. -/
def serviceCreateHold (cfg : Config) (rl : Option (Bool × Int)) (now : Int)
    (userId eventId : Int) (seatIds : List Int) (ttl : Int) (holdId : Nat)
    (st : DBState) : DBState × Except SvcError Nat :=
  if seatIds.length = 0 then (st, .error .invalidInput)
  else
    match rl with
    | some (false, retry) => (st, .error (.rateLimited retry))
    | _ =>
      match holdSeatsCore now eventId userId seatIds (clampTTL cfg ttl)
          holdId st with
      | .ok (st', h) => (st', .ok h)
      | .error .seatsUnavailable => (st, .error .seatsUnavailable)
      | .error .conflict => (st, .error .holdConflict)
      | .error e => (st, .error (.repo e))

/-- `Service.Confirm`: reject non-positive totals; inside one unit of
work, look up the event by hold (`ErrNotFound` ⇒ `ErrHoldNotFound`), then
run `confirmHoldCore`, translating `ErrConflict` ⇒ `ErrHoldConflict` and
`ErrHoldExpired` ⇒ `ErrHoldExpired` while every other repository error —
in particular `ErrNothingToConfirm` — is forwarded unmapped.  On error
the transaction rolls back.  On success it returns (orderId, eventId). -/
def serviceConfirm (now : Int) (holdId : Nat) (totalCents : Int)
    (orderId : Nat) (ticketId : Nat → Nat) (st : DBState) :
    DBState × Except SvcError (Nat × Int) :=
  if totalCents ≤ 0 then (st, .error .invalidInput)
  else
    match eventIDByHold holdId st with
    | .error .notFound => (st, .error .holdNotFound)
    | .error e => (st, .error (.repo e))
    | .ok eventId =>
      match confirmHoldCore now holdId totalCents orderId ticketId st with
      | .ok (st', oid) => (st', .ok (oid, eventId))
      | .error .conflict => (st, .error .holdConflict)
      | .error .holdExpired => (st, .error .holdExpired)
      | .error e => (st, .error (.repo e))

/-- `Service.Cancel`: look up the event by hold (`ErrNotFound` ⇒
`ErrHoldNotFound`), then run `cancelHoldCore` (`ErrNotFound` ⇒
`ErrHoldNotFound`); rollback on error; returns the event id. -/
def serviceCancel (holdId : Nat) (st : DBState) :
    DBState × Except SvcError Int :=
  match eventIDByHold holdId st with
  | .error .notFound => (st, .error .holdNotFound)
  | .error e => (st, .error (.repo e))
  | .ok eventId =>
    match cancelHoldCore holdId st with
    | .ok st' => (st', .ok eventId)
    | .error .notFound => (st, .error .holdNotFound)
    | .error e => (st, .error (.repo e))

/-- `Service.Expire` simply forwards `ExpireHolds`. -/
def serviceExpire (now : Int) (st : DBState) : DBState × Int :=
  expireHolds now st

/-! ## HTTP boundary (gin router, `part_001`/`part_002`) -/

/-- Modelled Go strings (byte/rune sequences) where structural reasoning
is needed. -/
abbrev Str : Type := List Char

/-- Literal conversion from a Lean string. -/
def strLit (s : String) : Str := s.data

/-- `respondErr`'s switch over reservation-service error kinds: the
`(status, {"error": message})` pair it writes, or `none` when no case
matches — the switch has no default branch, so an unmatched error causes
`respondErr` to write no response at all (gin then emits status 200 with
an empty body). -/
def respondErr (e : SvcError) : Option (Nat × Str) :=
  match e with
  | .eventNotFound => some (404, strLit "event not found")
  | .holdConflict => some (409, strLit "hold conflict")
  | .holdExpired => some (409, strLit "hold expired")
  | .holdNotFound => some (404, strLit "hold not found")
  | .seatsUnavailable => some (409, strLit "seats unavailable")
  | _ => none

/-! ## Redis key-value model -/

/-- One Redis string entry: key, value, and the TTL it was written with.
TTL expiry itself is not modelled: all modelled requests happen within
the lifetime of the entries they read. -/
structure KVEntry where
  key : Str
  val : Str
  ttl : Int
deriving DecidableEq, Repr

/-- The Redis database: an association list, most recent write first. -/
abbrev KV : Type := List KVEntry

/-- `GET key`: the value, or `none` (redis.Nil) when absent. -/
def kvGet (kv : KV) (key : Str) : Option Str :=
  (kv.find? (fun e => e.key = key)).map (·.val)

/-- The TTL an entry was last written with (model-level observer used to
state cache-contract theorems). -/
def kvGetTTL (kv : KV) (key : Str) : Option Int :=
  (kv.find? (fun e => e.key = key)).map (·.ttl)

/-- `SET key val ttl`: overwrite the entry. -/
def kvSet (kv : KV) (key val : Str) (ttl : Int) : KV :=
  ⟨key, val, ttl⟩ :: kv.filter (fun e => ¬ e.key = key)

/-- `SETNX key val ttl`: set when absent; returns whether it was set. -/
def kvSetNX (kv : KV) (key val : Str) (ttl : Int) : Bool × KV :=
  match kvGet kv key with
  | some _ => (false, kv)
  | none => (true, kvSet kv key val ttl)

/-- `DEL key`. -/
def kvDel (kv : KV) (key : Str) : KV :=
  kv.filter (fun e => ¬ e.key = key)

/-! ## Idempotency store (`part_009`, redis idempotency.go) -/

/-- `KeyIdemHold`: `tixgo:v1:idem:holds:{eventId}:{idemKey}`. -/
def keyIdemHold (eventId : Int) (idemKey : Str) : Str :=
  strLit "tixgo:v1:idem:holds:" ++ (toString eventId).data ++
    strLit ":" ++ idemKey

/-- `IdempotencyStore.AcquireLock`: `SetNX(key, "LOCK", lockTTL)`. -/
def acquireLock (kv : KV) (key : Str) (lockTTL : Int) : Bool × KV :=
  kvSetNX kv key (strLit "LOCK") lockTTL

/-- `IdempotencyStore.SaveResult`: `Set(key, "RES:" + payload, ttl)`. -/
def saveResult (kv : KV) (key payload : Str) (ttl : Int) : KV :=
  kvSet kv key (strLit "RES:" ++ payload) ttl

/-- `IdempotencyStore.GetResult`: absent key ⇒ `("", false)`; a value with
prefix `RES:` ⇒ the value with the prefix trimmed and `true`; any other
value (such as the `LOCK` sentinel) ⇒ `("", false)`. -/
def getResult (kv : KV) (key : Str) : Str × Bool :=
  match kvGet kv key with
  | none => ([], false)
  | some v =>
    if (strLit "RES:").isPrefixOf v then (v.drop 4, true) else ([], false)

/-- `IdempotencyStore.Release`: `Del(key)`. -/
def releaseIdem (kv : KV) (key : Str) : KV := kvDel kv key

/-! ## Create-hold handler (`handleCreateHold`, `part_002`) -/

/-- An HTTP response: status and body bytes.  When the handler's error
branch matches no `respondErr` case and writes nothing, gin emits status
200 with an empty body. -/
structure HttpResp where
  status : Nat
  body : Str
deriving DecidableEq, Repr

/-- The serialized `CreateHoldResponse` JSON body
`{"hold_id":"<id>"}` (`json.Marshal` on the handler's response struct;
the same bytes are stored by `SaveResult` and returned by `c.JSON`). -/
def serializeHoldResp (holdId : Nat) : Str :=
  strLit "\x7b\"hold_id\":\"" ++ (toString holdId).data ++ strLit "\"\x7d"

/-- The `{"error": msg}` body written by error responses. -/
def errorBody (msg : Str) : Str :=
  strLit "\x7b\"error\":\"" ++ msg ++ strLit "\"\x7d"

/-- The error response of `handleCreateHold`: rate-limited errors become
429, otherwise `respondErr`'s verdict, and when nothing matches gin's
default 200-with-empty-body stands. -/
def createHoldErrResp (e : SvcError) : HttpResp :=
  match e with
  | .rateLimited _ => ⟨429, errorBody (strLit "rate limited")⟩
  | _ =>
    match respondErr e with
    | some (st, msg) => ⟨st, errorBody msg⟩
    | none => ⟨200, []⟩

/-- `handleCreateHold` with a non-nil idempotency store.  When the
(trimmed) `Idempotency-Key` header is non-empty: fast path on a stored
`RES:` entry (201 with the stored payload); otherwise acquire the lock
(60 s TTL) — on failure re-check for a result (race with the winner) and
otherwise answer 409 in-progress; with the lock held run
`Service.CreateHold`, releasing the lock on error, and on success save
the serialized response under the storage key with the store's result
TTL and answer 201.  Without a key the service call runs bare. -/
def handleCreateHold (cfg : Config) (idemTTL : Int)
    (rl : Option (Bool × Int)) (now : Int) (userId eventId : Int)
    (seatIds : List Int) (ttlReq : Int) (idemKey : Str) (holdId : Nat)
    (kv : KV) (st : DBState) : HttpResp × KV × DBState :=
  if idemKey = [] then
    match serviceCreateHold cfg rl now userId eventId seatIds ttlReq holdId st with
    | (st', .ok hid) => (⟨201, serializeHoldResp hid⟩, kv, st')
    | (st', .error e) => (createHoldErrResp e, kv, st')
  else
    let k := keyIdemHold eventId idemKey
    match getResult kv k with
    | (payload, true) => (⟨201, payload⟩, kv, st)
    | (_, false) =>
      let (locked, kv1) := acquireLock kv k 60000000000
      if locked then
        match serviceCreateHold cfg rl now userId eventId seatIds ttlReq holdId st with
        | (st', .ok hid) =>
          let body := serializeHoldResp hid
          (⟨201, body⟩, saveResult kv1 k body idemTTL, st')
        | (st', .error e) => (createHoldErrResp e, releaseIdem kv1 k, st')
      else
        match getResult kv1 k with
        | (payload, true) => (⟨201, payload⟩, kv1, st)
        | (_, false) =>
          (⟨409, errorBody (strLit "idempotency key in progress")⟩, kv1, st)

/-! ## Read-through cache (`internal/repository/redis/cache.go`) -/

/-- Outcome of `GetOrSetJSON`: either the value, or one of the failures
it can propagate — a JSON decode failure of a cached value, or the
loader's own error (carried opaquely). -/
inductive CacheErr where
  | decodeFailed
  | loaderFailed (e : Str)
deriving DecidableEq, Repr

/-- `GetJSON`: miss ⇒ `ok none`; hit that fails to unmarshal ⇒ decode
error; hit ⇒ the decoded value.  `dec` is `json.Unmarshal` for `T`. -/
def getJSONAs (T : Type) (dec : Str → Option T) (kv : KV) (key : Str) :
    Except CacheErr (Option T) :=
  match kvGet kv key with
  | none => .ok none
  | some s =>
    match dec s with
    | none => .error .decodeFailed
    | some v => .ok (some v)

/-- `GetOrSetJSON`: try the cache; on a miss enter the single-flight
group, re-check the cache, then run the loader.  On loader failure
return the loader's error without writing; on loader success write the
encoded value with the given TTL — a failing cache write (`_ =
SetJSON(...)`, modelled by `setFails`) is swallowed — and return the
loaded value.  `enc`/`dec` are `json.Marshal`/`json.Unmarshal` for `T`;
`loadRes` is the loader's outcome; the single-flight deduplication of
concurrent in-process callers is not modelled (requests are
sequential). -/
def getOrSetJSON (T : Type) (dec : Str → Option T) (enc : T → Str)
    (kv : KV) (key : Str) (ttl : Int) (loadRes : Except Str T)
    (setFails : Bool) : KV × Except CacheErr T :=
  match getJSONAs T dec kv key with
  | .error _ => (kv, .error .decodeFailed)
  | .ok (some v) => (kv, .ok v)
  | .ok none =>
    match getJSONAs T dec kv key with
    | .error _ => (kv, .error .decodeFailed)
    | .ok (some v) => (kv, .ok v)
    | .ok none =>
      match loadRes with
      | .error le => (kv, .error (.loaderFailed le))
      | .ok v =>
        let kv' := if setFails then kv else kvSet kv key (enc v) ttl
        (kv', .ok v)

/-! ## Sliding-window rate limiter (`part_010`, redis ratelimit.go) -/

/-- One member of the rate limiter's sorted set: a unique random member
tag scored by the timestamp (milliseconds) of its call. -/
structure RLEntry where
  member : Nat
  score : Int
deriving DecidableEq, Repr

/-- `ZREMRANGEBYSCORE key 0 (now - window)`: drop every entry whose score
lies in `[0, now - window]`. -/
def zremUpTo (st : List RLEntry) (lo hi : Int) : List RLEntry :=
  st.filter (fun e => ¬ (lo ≤ e.score ∧ e.score ≤ hi))

/-- `ZADD key NX now member`: insert unless the member is present. -/
def zaddNX (st : List RLEntry) (member : Nat) (score : Int) :
    List RLEntry :=
  if st.any (fun e => e.member = member) then st else st ++ [⟨member, score⟩]

/-- The score of `ZRANGE key 0 0 WITHSCORES`'s single element: the
minimum score of the set; the Lua script falls back to `now - window`
when the set is empty. -/
def earliestScore (st : List RLEntry) (dflt : Int) : Int :=
  ((st.map (·.score)).min?).getD dflt

/-- One run of `luaSlidingWindow` (executed atomically server-side):
remove entries older than the window, add the new member, count the set
(`PEXPIRE` does not affect the model), and either admit with
`(1, count, 0)` or, when `count > limit`, deny with
`(0, count, retry_ms)` where `retry_ms = window - (now - earliest)`
floored at 0.  Returns (new set, allowed, count, retryAfter). -/
def swStep (limit window : Int) (st : List RLEntry) (now : Int)
    (member : Nat) : List RLEntry × Bool × Int × Int :=
  let st1 := zremUpTo st 0 (now - window)
  let st2 := zaddNX st1 member now
  let count : Int := st2.length
  if limit < count then
    let earliest := earliestScore st2 (now - window)
    let retry0 := window - (now - earliest)
    let retry := if retry0 < 0 then 0 else retry0
    (st2, false, count, retry)
  else
    (st2, true, count, 0)

/-- `SlidingWindowLimiter.Allow` for one key: run the script with the
current time in milliseconds and a fresh random member; returns
`(allowed, current, retryAfter)` together with the new set state. -/
def swAllow (limit window : Int) (st : List RLEntry) (nowMs : Int)
    (member : Nat) : List RLEntry × Bool × Int × Int :=
  swStep limit window st nowMs member

/-- A sequence of `Allow` calls on one key: each call carries its
timestamp and its fresh random member; returns the final set state and,
per call, `(time, member, allowed)`. -/
def swRun (limit window : Int) :
    List (Int × Nat) → List RLEntry → List RLEntry × List (Int × Nat × Bool)
  | [], st => (st, [])
  | (t, m) :: rest, st =>
    let s := swStep limit window st t m
    let r := swRun limit window rest s.1
    (r.1, (t, m, s.2.1) :: r.2)

/-! ## SHA-256 (`crypto/sha256`, FIPS 180-4) and the ETag helper
(`writeJSONWithCache`, `part_001`).

`writeJSONWithCache` hashes the marshalled body with the standard
library's SHA-256; the hash is reproduced here over byte lists with
`Nat` words reduced modulo `2^32`. -/

/-- Truncate to a 32-bit word. -/
def w32 (n : Nat) : Nat := n % 4294967296

/-- 32-bit right rotation (the argument is a 32-bit word). -/
def rotr32 (x k : Nat) : Nat := w32 ((x >>> k) ||| (x <<< (32 - k)))

/-- Bitwise complement of a 32-bit word. -/
def not32 (x : Nat) : Nat := x ^^^ 4294967295

/-- SHA-256 Ch. -/
def shaCh (e f g : Nat) : Nat := (e &&& f) ^^^ (not32 e &&& g)

/-- SHA-256 Maj. -/
def shaMaj (a b c : Nat) : Nat := (a &&& b) ^^^ (a &&& c) ^^^ (b &&& c)

/-- SHA-256 Σ₀. -/
def bigSigma0 (a : Nat) : Nat := rotr32 a 2 ^^^ rotr32 a 13 ^^^ rotr32 a 22

/-- SHA-256 Σ₁. -/
def bigSigma1 (e : Nat) : Nat := rotr32 e 6 ^^^ rotr32 e 11 ^^^ rotr32 e 25

/-- SHA-256 σ₀. -/
def smallSigma0 (x : Nat) : Nat := rotr32 x 7 ^^^ rotr32 x 18 ^^^ (x >>> 3)

/-- SHA-256 σ₁. -/
def smallSigma1 (x : Nat) : Nat := rotr32 x 17 ^^^ rotr32 x 19 ^^^ (x >>> 10)

/-- The 64 SHA-256 round constants of FIPS 180-4 (decimal). -/
def K256 : List Nat :=
  [1116352408, 1899447441, 3049323471, 3921009573, 961987163,
   1508970993, 2453635748, 2870763221, 3624381080, 310598401,
   607225278, 1426881987, 1925078388, 2162078206, 2614888103,
   3248222580, 3835390401, 4022224774, 264347078, 604807628,
   770255983, 1249150122, 1555081692, 1996064986, 2554220882,
   2821834349, 2952996808, 3210313671, 3336571891, 3584528711,
   113926993, 338241895, 666307205, 773529912, 1294757372,
   1396182291, 1695183700, 1986661051, 2177026350, 2456956037,
   2730485921, 2820302411, 3259730800, 3345764771, 3516065817,
   3600352804, 4094571909, 275423344, 430227734, 506948616,
   659060556, 883997877, 958139571, 1322822218, 1537002063,
   1747873779, 1955562222, 2024104815, 2227730452, 2361852424,
   2428436474, 2756734187, 3204031479, 3329325298]

/-- The SHA-256 initial hash value of FIPS 180-4 (decimal). -/
def H256 : List Nat :=
  [1779033703, 3144134277, 1013904242, 2773480762,
   1359893119, 2600822924, 528734635, 1541459225]

/-- Big-endian bytes of a value, `n` bytes wide. -/
def toBytesBE (n : Nat) (v : Nat) : List Nat :=
  match n with
  | 0 => []
  | k + 1 => toBytesBE k (v / 256) ++ [v % 256]

/-- A big-endian 32-bit word from up to four bytes. -/
def wordBE (bs : List Nat) : Nat := bs.foldl (fun acc b => acc * 256 + b) 0

/-- SHA-256 message padding: append `0x80`, zeros to 56 mod 64, and the
bit length as a 64-bit big-endian integer. -/
def shaPad (msg : List Nat) : List Nat :=
  let l := msg.length
  let z := (119 - l % 64) % 64
  msg ++ [0x80] ++ List.replicate z 0 ++ toBytesBE 8 (l * 8)

/-- Split a byte list into 64-byte blocks; the fuel argument (at least
the list length) only drives structural recursion. -/
def chunks64Go : Nat → List Nat → List (List Nat)
  | 0, _ => []
  | _, [] => []
  | fuel + 1, b :: rest =>
    ((b :: rest).take 64) :: chunks64Go fuel ((b :: rest).drop 64)

/-- Split the padded message into 64-byte blocks. -/
def chunks64 (l : List Nat) : List (List Nat) := chunks64Go l.length l

/-- The sixteen initial 32-bit message words of one block. -/
def blockWords (b : List Nat) : List Nat :=
  (List.range 16).map fun i => wordBE ((b.drop (4 * i)).take 4)

/-- One step of the message-schedule extension: append
`σ₁(w[t-2]) + w[t-7] + σ₀(w[t-15]) + w[t-16]`. -/
def scheduleStep (acc : List Nat) : List Nat :=
  let n := acc.length
  acc ++ [w32 (smallSigma1 (acc.getD (n - 2) 0) + acc.getD (n - 7) 0 +
               smallSigma0 (acc.getD (n - 15) 0) + acc.getD (n - 16) 0)]

/-- Extend the sixteen message words to sixty-four. -/
def fullSchedule (ws : List Nat) : List Nat :=
  (List.range 48).foldl (fun a _ => scheduleStep a) ws

/-- One SHA-256 round on the working variables `[a,b,c,d,e,f,g,h]`. -/
def shaRound (kt wt : Nat) (hs : List Nat) : List Nat :=
  match hs with
  | [a, b, c, d, e, f, g, h] =>
    let t1 := w32 (h + bigSigma1 e + shaCh e f g + kt + wt)
    let t2 := w32 (bigSigma0 a + shaMaj a b c)
    [w32 (t1 + t2), a, b, c, w32 (d + t1), e, f, g]
  | l => l

/-- Compress one 64-byte block into the hash state. -/
def compressBlock (hs : List Nat) (block : List Nat) : List Nat :=
  let ws := fullSchedule (blockWords block)
  let v := (List.range 64).foldl
    (fun stt t => shaRound (K256.getD t 0) (ws.getD t 0) stt) hs
  (hs.zip v).map fun p => w32 (p.1 + p.2)

/-- SHA-256 of a byte sequence, as 32 digest bytes. -/
def sha256 (msg : List Nat) : List Nat :=
  ((chunks64 (shaPad msg)).foldl compressBlock H256).flatMap (toBytesBE 4)

/-- Lowercase hex digit, as produced by `hex.EncodeToString`. -/
def hexDigit (n : Nat) : Char := (strLit "0123456789abcdef").getD n '0'

/-- Lowercase hex encoding of bytes (`hex.EncodeToString`). -/
def hexOfBytes (bs : List Nat) : Str :=
  bs.flatMap fun b => [hexDigit (b / 16), hexDigit (b % 16)]

/-- The response written by `writeJSONWithCache`: the ETag header, the
optional Cache-Control header, the status, and the body when one is
written (304 responses carry none). -/
structure CachedWrite where
  etag : Str
  cacheControl : Option Str
  status : Nat
  body : Option (List Nat)
deriving DecidableEq, Repr

/-- `writeJSONWithCache` after a successful `json.Marshal` producing
`body`: compute the quoted hex SHA-256 tag, prepend `W/` when `weak`,
always set the ETag (and Cache-Control when non-empty), and answer 304
without a body when the `If-None-Match` header equals the tag, else the
given status with the body. -/
def writeJSONWithCache (status : Nat) (body : List Nat)
    (cacheControl : Str) (weak : Bool) (inm : Str) : CachedWrite :=
  let tag0 := strLit "\"" ++ hexOfBytes (sha256 body) ++ strLit "\""
  let tag := if weak then strLit "W/" ++ tag0 else tag0
  let cc := if cacheControl = [] then none else some cacheControl
  if inm = tag then ⟨tag, cc, 304, none⟩
  else ⟨tag, cc, status, some body⟩

/-- One create-hold retry: the per-request fields of a subsequent
request sharing the first request's idempotency key and event. -/
structure SubReq where
  userId : Int
  seatIds : List Int
  ttlSec : Int
  holdId : Nat
  now : Int
  rl : Option (Bool × Int)

/-- A sequence of create-hold requests on one event with one idempotency
key, processed in order; returns the final Redis and database states and
the responses. -/
def runRequests (cfg : Config) (idemTTL : Int) (eventId : Int)
    (idemKey : Str) :
    List SubReq → KV → DBState → KV × DBState × List HttpResp
  | [], kv, st => (kv, st, [])
  | r :: rest, kv, st =>
    let q := handleCreateHold cfg idemTTL r.rl r.now r.userId eventId
      r.seatIds r.ttlSec idemKey r.holdId kv st
    let w := runRequests cfg idemTTL eventId idemKey rest q.2.1 q.2.2
    (w.1, w.2.1, q.1 :: w.2.2)

/-! ## Shared helper lemmas -/

/-- Reading the key just written. -/
theorem kvGet_kvSet_same (kv : KV) (key val : Str) (ttl : Int) :
    kvGet (kvSet kv key val ttl) key = some val := by
  simp [kvGet, kvSet, List.find?]

/-- The TTL of the key just written. -/
theorem kvGetTTL_kvSet_same (kv : KV) (key val : Str) (ttl : Int) :
    kvGetTTL (kvSet kv key val ttl) key = some ttl := by
  simp [kvGetTTL, kvSet, List.find?]

/-- `RES:`-prefixed values round-trip through `GetResult`'s prefix test
and trim. -/
theorem getResult_saved (kv : KV) (key payload : Str) (ttl : Int) :
    getResult (saveResult kv key payload ttl) key = (payload, true) := by
  have hpre : (strLit "RES:").isPrefixOf (strLit "RES:" ++ payload) = true := by
    simp [List.isPrefixOf_iff_prefix]
  simp [getResult, saveResult, kvGet_kvSet_same, hpre, strLit]

/-- `GetResult` on an absent key. -/
theorem getResult_none (kv : KV) (key : Str) (h : kvGet kv key = none) :
    getResult kv key = ([], false) := by
  simp only [getResult, h]

/-- The handler's fast path: a stored result is served verbatim with
status 201, leaving both stores untouched. -/
theorem handleCreateHold_fast (cfg : Config) (idemTTL : Int)
    (rl : Option (Bool × Int)) (now : Int) (userId eventId : Int)
    (seatIds : List Int) (ttlReq : Int) (idemKey : Str) (holdId : Nat)
    (kv : KV) (st : DBState) (payload : Str) (hk : ¬ idemKey = [])
    (hres : getResult kv (keyIdemHold eventId idemKey) = (payload, true)) :
    handleCreateHold cfg idemTTL rl now userId eventId seatIds ttlReq
      idemKey holdId kv st = (⟨201, payload⟩, kv, st) := by
  simp only [handleCreateHold, if_neg hk, hres]

/-- Requests arriving while the storage key holds a saved result are all
answered from it, and neither store changes. -/
theorem runRequests_cached (cfg : Config) (idemTTL : Int) (eventId : Int)
    (idemKey : Str) (payload : Str) (kv : KV) (st : DBState)
    (hk : ¬ idemKey = [])
    (hres : getResult kv (keyIdemHold eventId idemKey) = (payload, true)) :
    ∀ reqs : List SubReq,
      runRequests cfg idemTTL eventId idemKey reqs kv st =
        (kv, st, reqs.map fun _ => ⟨201, payload⟩) := by
  intro reqs
  induction reqs with
  | nil => rfl
  | cons r rest ih =>
    simp only [runRequests,
      handleCreateHold_fast cfg idemTTL r.rl r.now r.userId eventId
        r.seatIds r.ttlSec idemKey r.holdId kv st payload hk hres,
      ih, List.map]

/-- A successful `CreateHold` call is a successful `holdSeatsCore`
transaction at the clamped ttl. -/
theorem serviceCreateHold_ok_core (cfg : Config) (rl : Option (Bool × Int))
    (now : Int) (userId eventId : Int) (seatIds : List Int) (ttlReq : Int)
    (holdId : Nat) (st : DBState)
    (hsucc : (serviceCreateHold cfg rl now userId eventId seatIds ttlReq
        holdId st).2 = .ok holdId) :
    ∃ st1,
      serviceCreateHold cfg rl now userId eventId seatIds ttlReq holdId st =
        (st1, .ok holdId) ∧
      holdSeatsCore now eventId userId seatIds (clampTTL cfg ttlReq)
        holdId st = .ok (st1, holdId) := by
  unfold serviceCreateHold at hsucc ⊢
  by_cases h0 : seatIds.length = 0
  · rw [if_pos h0] at hsucc
    simp at hsucc
  · rw [if_neg h0] at hsucc ⊢
    rcases rl with _ | ⟨b, retry⟩
    · cases hcore : holdSeatsCore now eventId userId seatIds
          (clampTTL cfg ttlReq) holdId st with
      | ok p =>
        obtain ⟨st1, h⟩ := p
        rw [hcore] at hsucc
        replace hsucc : Except.ok h = Except.ok holdId := hsucc
        injection hsucc with hh
        subst hh
        exact ⟨st1, rfl, rfl⟩
      | error e =>
        rw [hcore] at hsucc
        cases e <;> simp at hsucc
    · cases b with
      | false =>
        exact absurd hsucc (by simp)
      | true =>
        cases hcore : holdSeatsCore now eventId userId seatIds
            (clampTTL cfg ttlReq) holdId st with
        | ok p =>
          obtain ⟨st1, h⟩ := p
          rw [hcore] at hsucc
          replace hsucc : Except.ok h = Except.ok holdId := hsucc
          injection hsucc with hh
          subst hh
          exact ⟨st1, rfl, rfl⟩
        | error e =>
          rw [hcore] at hsucc
          cases e <;> simp at hsucc

/-- The `holds` table after a successful `holdSeatsCore`: the untouched
old rows plus the freshly inserted hold. -/
theorem holdSeatsCore_ok_holds (now eventId userId : Int)
    (seatIds : List Int) (ttl : Int) (holdId : Nat) (st st' : DBState)
    (H : Nat)
    (h : holdSeatsCore now eventId userId seatIds ttl holdId st =
      .ok (st', H)) :
    st'.holds = st.holds ++ [⟨holdId, eventId, userId, now + ttl⟩] := by
  unfold holdSeatsCore at h
  by_cases hany : (st.holds.any fun x => x.id = holdId) = true
  · rw [if_pos hany] at h
    cases h
  · rw [if_neg hany] at h
    by_cases haff : (reconcileExpired eventId now st.eventSeats).countP
        (holdTarget eventId seatIds) ≠ seatIds.length
    · rw [if_pos haff] at h
      cases h
    · rw [if_neg haff] at h
      injection h with h
      injection h with h1 h2
      rw [← h1]

/-! ## Rate limiter lemmas -/

/-- The sorted-set entries contributed by a call trace. -/
def entriesOf (l : List (Int × Nat)) : List RLEntry :=
  l.map fun c => ⟨c.2, c.1⟩

/-- The time of the last call of a trace (0 for the empty trace). -/
def lastTime (l : List (Int × Nat)) : Int :=
  ((l.getLast?).map (·.1)).getD 0

/-- The set state a script run leaves behind does not depend on the
admit/deny verdict. -/
theorem swStep_state (limit W : Int) (st : List RLEntry) (now : Int)
    (m : Nat) :
    (swStep limit W st now m).1 = zaddNX (zremUpTo st 0 (now - W)) m now := by
  simp only [swStep]
  split <;> rfl

/-- Unfolding a run over a trace extended by one call. -/
theorem swRun_append (limit W : Int) (l : List (Int × Nat))
    (c : Int × Nat) :
    ∀ st, swRun limit W (l ++ [c]) st =
      ((swStep limit W (swRun limit W l st).1 c.1 c.2).1,
       (swRun limit W l st).2 ++
         [(c.1, c.2, (swStep limit W (swRun limit W l st).1 c.1 c.2).2.1)]) := by
  induction l with
  | nil => intro st; simp [swRun]
  | cons d rest ih => intro st; simp [swRun, ih]

/-- A run records exactly the trace's times and members, in order. -/
theorem swRun_times (limit W : Int) :
    ∀ (calls : List (Int × Nat)) (st : List RLEntry),
      (swRun limit W calls st).2.map (fun r => (r.1, r.2.1)) = calls := by
  intro calls
  induction calls with
  | nil => intro st; rfl
  | cons c rest ih => intro st; simp [swRun, ih]

/-- State characterization: starting from an empty set, after a trace of
calls with non-negative non-decreasing times and pairwise-distinct
members, the sorted set holds exactly the calls younger than one window
before the last call. -/
theorem swRun_state (limit W : Int) (hW : 0 < W) :
    ∀ calls : List (Int × Nat),
      (∀ c ∈ calls, 0 ≤ c.1) →
      List.Chain' (fun a b => a.1 ≤ b.1) calls →
      (calls.map Prod.snd).Nodup →
      (swRun limit W calls []).1 =
        (entriesOf calls).filter
          (fun e => lastTime calls - W < e.score) := by
  intro calls
  induction calls using List.reverseRecOn with
  | nil => intro _ _ _; rfl
  | append_singleton l c ih =>
    intro hpos hchain hnodup
    have hposl : ∀ x ∈ l, 0 ≤ x.1 := fun x hx =>
      hpos x (List.mem_append_left _ hx)
    obtain ⟨hchl, -, hlast⟩ := List.chain'_append.mp hchain
    rw [List.map_append] at hnodup
    obtain ⟨hndl, -, hdisj⟩ := List.nodup_append.mp hnodup
    have hnotin : c.2 ∉ l.map Prod.snd := fun hmem => by
      have := hdisj hmem
      simp at this
    have hlt : lastTime (l ++ [c]) = c.1 := by
      simp [lastTime, List.getLast?_concat]
    have hll : lastTime l ≤ c.1 := by
      cases hgl : l.getLast? with
      | none =>
        have := hpos c (List.mem_append_right _ (List.mem_singleton_self c))
        simp [lastTime, hgl]
        omega
      | some x =>
        have hx := hlast x (by simp [hgl]) c (by simp)
        simp [lastTime, hgl]
        exact hx
    rw [swRun_append, hlt]
    rw [swStep_state, ih hposl hchl hndl]
    have hmid : zremUpTo
        ((entriesOf l).filter (fun e => lastTime l - W < e.score)) 0
          (c.1 - W) =
        (entriesOf l).filter (fun e => c.1 - W < e.score) := by
      rw [zremUpTo, List.filter_filter]
      apply List.filter_congr
      intro e he
      have hs0 : 0 ≤ e.score := by
        simp only [entriesOf, List.mem_map] at he
        obtain ⟨x, hx, rfl⟩ := he
        exact hposl x hx
      rw [Bool.eq_iff_iff]
      simp only [Bool.and_eq_true, Bool.not_eq_true, decide_eq_true_eq,
        decide_not, Bool.not_eq_true', decide_eq_false_iff_not]
      omega
    rw [hmid, zaddNX]
    have hany : ((entriesOf l).filter
        (fun e => c.1 - W < e.score)).any (fun e => e.member = c.2) =
          false := by
      simp only [List.any_eq_false, decide_eq_true_eq]
      intro e he
      have he' := List.mem_of_mem_filter he
      simp only [entriesOf, List.mem_map] at he'
      obtain ⟨x, hx, rfl⟩ := he'
      intro hcontra
      exact hnotin (hcontra ▸ List.mem_map_of_mem Prod.snd hx)
    rw [hany]
    have hc : (c.1 - W < c.1) := by omega
    simp [entriesOf, List.filter_append, hc]

/-- The admit verdict of one script run: admitted exactly when the
post-insert cardinality does not exceed the limit. -/
theorem swStep_allowed (limit W : Int) (st : List RLEntry) (now : Int)
    (m : Nat) :
    (swStep limit W st now m).2.1 =
      !decide (limit <
        ((zaddNX (zremUpTo st 0 (now - W)) m now).length : Int)) := by
  by_cases h : limit <
      ((zaddNX (zremUpTo st 0 (now - W)) m now).length : Int)
  · simp [swStep, h]
  · simp [swStep, h]

/-- Safety of the sliding window: over any trace of `Allow` calls with
non-negative, non-decreasing times and fresh random members, any window
`(t, t+W]` contains at most `limit` admitted calls. -/
theorem swRun_window_bound (limit W t : Int) (hW : 0 < W)
    (hlim : 0 ≤ limit) :
    ∀ calls : List (Int × Nat),
      (∀ c ∈ calls, 0 ≤ c.1) →
      List.Chain' (fun a b => a.1 ≤ b.1) calls →
      (calls.map Prod.snd).Nodup →
      (((swRun limit W calls []).2.countP
          (fun r => t < r.1 ∧ r.1 ≤ t + W ∧ r.2.2 = true)) : Int) ≤
        limit := by
  intro calls
  induction calls using List.reverseRecOn with
  | nil => intro _ _ _; simpa using hlim
  | append_singleton l c ih =>
    intro hpos hchain hnodup
    have hposl : ∀ x ∈ l, 0 ≤ x.1 := fun x hx =>
      hpos x (List.mem_append_left _ hx)
    obtain ⟨hchl, -, -⟩ := List.chain'_append.mp hchain
    have hnodup' := hnodup
    rw [List.map_append] at hnodup'
    obtain ⟨hndl, -, -⟩ := List.nodup_append.mp hnodup'
    have hrw := swRun_append limit W l c []
    by_cases hwa : (t < c.1 ∧ c.1 ≤ t + W ∧
        (swStep limit W (swRun limit W l []).1 c.1 c.2).2.1 = true)
    · -- the extending call lies in the window and was admitted: bound
      -- the whole windowed count by its post-insert cardinality
      have hstate := swRun_state limit W hW (l ++ [c]) hpos hchain hnodup
      have hlt : lastTime (l ++ [c]) = c.1 := by
        simp [lastTime, List.getLast?_concat]
      rw [hlt] at hstate
      have hst2 : (swStep limit W (swRun limit W l []).1 c.1 c.2).1 =
          (entriesOf (l ++ [c])).filter (fun e => c.1 - W < e.score) := by
        have h2 := hstate
        rw [hrw] at h2
        exact h2
      have hcount : (((entriesOf (l ++ [c])).filter
          (fun e => c.1 - W < e.score)).length : Int) ≤ limit := by
        have hfl := hwa.2.2
        rw [swStep_allowed] at hfl
        simp only [Bool.not_eq_true', decide_eq_false_iff_not,
          not_lt] at hfl
        rw [← swStep_state, hst2] at hfl
        exact hfl
      have hmono : ((swRun limit W (l ++ [c]) []).2).countP
          (fun r => t < r.1 ∧ r.1 ≤ t + W ∧ r.2.2 = true) ≤
          ((swRun limit W (l ++ [c]) []).2).countP
            (fun r => t < r.1 ∧ r.1 ≤ t + W) := by
        apply List.countP_mono_left
        intro r hr hp
        simp only [decide_eq_true_eq] at hp ⊢
        exact ⟨hp.1, hp.2.1⟩
      have htimes : ((swRun limit W (l ++ [c]) []).2).countP
          (fun r => t < r.1 ∧ r.1 ≤ t + W) =
          (l ++ [c]).countP (fun x => t < x.1 ∧ x.1 ≤ t + W) := by
        conv_rhs => rw [← swRun_times limit W (l ++ [c]) []]
        rw [List.countP_map]
        rfl
      have hcut : (l ++ [c]).countP (fun x => t < x.1 ∧ x.1 ≤ t + W) ≤
          (l ++ [c]).countP (fun x => c.1 - W < x.1) := by
        apply List.countP_mono_left
        intro x hx hp
        simp only [decide_eq_true_eq] at hp ⊢
        have hcw := hwa.2.1
        omega
      have hlen : (l ++ [c]).countP (fun x => c.1 - W < x.1) =
          ((entriesOf (l ++ [c])).filter
            (fun e => c.1 - W < e.score)).length := by
        rw [← List.countP_eq_length_filter, entriesOf, List.countP_map]
        rfl
      have := le_trans hmono (le_of_eq htimes)
      have := le_trans this (le_trans hcut (le_of_eq hlen))
      omega
    · -- the extending call contributes nothing to the windowed count
      rw [hrw, List.countP_append]
      have hz : ([((c.1, c.2,
          (swStep limit W (swRun limit W l []).1 c.1 c.2).2.1))] :
            List (Int × Nat × Bool)).countP
          (fun r => t < r.1 ∧ r.1 ≤ t + W ∧ r.2.2 = true) = 0 := by
        simp only [List.countP_cons, List.countP_nil]
        simp [hwa]
      rw [hz]
      simpa using ih hposl hchl hndl

/-! ## C3 — sliding-window rate limiter -/

/-- C3.  For one key: (a) across any trace of `Allow` calls (times in
milliseconds, non-negative and non-decreasing; members fresh random
tags) at most `limit` calls inside any window `(t, t+W]` are admitted;
and (b) a call whose post-insert cardinality exceeds the limit is denied
with that cardinality as the reported count and with
`retryAfter = max 0 (W − (now − S))`, `S` being the score of the
earliest remaining member. -/
theorem slidingWindow_correct (limit W t : Int)
    (calls : List (Int × Nat)) (stb : List RLEntry) (nowb : Int)
    (memberb : Nat) (hW : 0 < W) (hlim : 0 ≤ limit)
    (hpos : ∀ c ∈ calls, 0 ≤ c.1)
    (hchain : List.Chain' (fun a b => a.1 ≤ b.1) calls)
    (hnodup : (calls.map Prod.snd).Nodup)
    (hover : limit <
      ((zaddNX (zremUpTo stb 0 (nowb - W)) memberb nowb).length : Int)) :
    (((swRun limit W calls []).2.countP
        (fun r => t < r.1 ∧ r.1 ≤ t + W ∧ r.2.2 = true)) : Int) ≤ limit ∧
    swAllow limit W stb nowb memberb =
      (zaddNX (zremUpTo stb 0 (nowb - W)) memberb nowb, false,
       ((zaddNX (zremUpTo stb 0 (nowb - W)) memberb nowb).length : Int),
       max 0 (W - (nowb - earliestScore
         (zaddNX (zremUpTo stb 0 (nowb - W)) memberb nowb)
         (nowb - W)))) := by
  refine ⟨swRun_window_bound limit W t hW hlim calls hpos hchain hnodup, ?_⟩
  have hmax : ∀ x : Int, (if x < 0 then 0 else x) = max 0 x := by
    intro x
    split <;> omega
  simp only [swAllow, swStep, hmax]
  rw [if_pos hover]

/-- C3 witness: three calls at times 0, 1, 2 against `limit = 1`,
`W = 10`; and a denied call whose set already holds two members. -/
theorem slidingWindow_correct_witness :
    (((swRun 1 10 [(0, 1), (1, 2), (2, 3)] []).2.countP
        (fun r => 0 < r.1 ∧ r.1 ≤ 0 + 10 ∧ r.2.2 = true)) : Int) ≤ 1 ∧
    swAllow 1 10 [⟨7, 0⟩, ⟨8, 1⟩] 2 9 =
      (zaddNX (zremUpTo [⟨7, 0⟩, ⟨8, 1⟩] 0 (2 - 10)) 9 2, false,
       ((zaddNX (zremUpTo [⟨7, 0⟩, ⟨8, 1⟩] 0 (2 - 10)) 9 2).length : Int),
       max 0 (10 - (2 - earliestScore
         (zaddNX (zremUpTo [⟨7, 0⟩, ⟨8, 1⟩] 0 (2 - 10)) 9 2) (2 - 10)))) :=
  slidingWindow_correct 1 10 0 [(0, 1), (1, 2), (2, 3)] [⟨7, 0⟩, ⟨8, 1⟩] 2 9
    (by decide) (by decide) (by decide)
    (by simp [List.chain'_cons, List.chain'_singleton])
    (by decide) (by decide)

/-! ## C4 — expiry reclaim -/

/-- C4.  After `Expire()` no `event_seats` row is still `held` with an
elapsed `hold_expires_at`; the returned count is exactly the number of
such rows in the pre-state, i.e. the rows affected by the first UPDATE —
the subsequent `DELETE FROM holds` (whose effect on the `holds` table the
third conjunct records) contributes nothing to it. -/
theorem expire_reclaims_all (now : Int) (st : DBState) :
    (serviceExpire now st).2 =
      (st.eventSeats.countP (expiredSeat now) : Int) ∧
    (serviceExpire now st).1.eventSeats.countP (expiredSeat now) = 0 ∧
    (serviceExpire now st).1.holds =
      st.holds.filter (fun h => ¬ h.expiresAt ≤ now) := by
  refine ⟨rfl, ?_, rfl⟩
  simp only [serviceExpire, expireHolds, List.countP_eq_zero]
  intro r hr
  simp only [List.mem_map] at hr
  obtain ⟨s, hs, rfl⟩ := hr
  by_cases h : expiredSeat now s = true
  · rw [if_pos h]
    simp [expiredSeat, resetSeat]
  · rw [if_neg h]
    exact h

/-! ## C7 — TTL clamping -/

/-- C7 counterexample.  With the configuration
`MinHoldTTL = 600 s, MaxHoldTTL = 0`, `New` normalizes `MaxHoldTTL` to
the 5-minute default, which is below `MinHoldTTL`; for the requested
`ttl = 420 s` the clamped value is `MinHoldTTL = 600 s`, not
`MaxHoldTTL` as the claim's `ttl > MaxHoldTTL` case demands, and it does
not lie below `MaxHoldTTL`. -/
theorem clampTTL_counterexample :
    (newConfig ⟨600000000000, 0⟩).maxHoldTTL < 420000000000 ∧
    clampTTL (newConfig ⟨600000000000, 0⟩) 420000000000 ≠
      (newConfig ⟨600000000000, 0⟩).maxHoldTTL ∧
    ¬ clampTTL (newConfig ⟨600000000000, 0⟩) 420000000000 ≤
      (newConfig ⟨600000000000, 0⟩).maxHoldTTL := by
  refine ⟨by decide, by decide, by decide⟩

/-- C7 amended.  For every configuration whose normalization satisfies
`MinHoldTTL ≤ MaxHoldTTL` (true except when `MinHoldTTL` exceeds the
5-minute default while `MaxHoldTTL` is non-positive or below it), the
defaults are as described and the ttl used by `CreateHold` is the
three-way clamp, always in `[MinHoldTTL, MaxHoldTTL]`. -/
theorem clampTTL_in_range (cfg : Config) (ttl : Int)
    (hok : (newConfig cfg).minHoldTTL ≤ (newConfig cfg).maxHoldTTL) :
    (cfg.minHoldTTL ≤ 0 → (newConfig cfg).minHoldTTL = 15000000000) ∧
    (0 < cfg.minHoldTTL → (newConfig cfg).minHoldTTL = cfg.minHoldTTL) ∧
    ((newConfig cfg).minHoldTTL ≤ ttl ∧ ttl ≤ (newConfig cfg).maxHoldTTL →
      clampTTL (newConfig cfg) ttl = ttl) ∧
    (ttl < (newConfig cfg).minHoldTTL →
      clampTTL (newConfig cfg) ttl = (newConfig cfg).minHoldTTL) ∧
    ((newConfig cfg).maxHoldTTL < ttl →
      clampTTL (newConfig cfg) ttl = (newConfig cfg).maxHoldTTL) ∧
    (newConfig cfg).minHoldTTL ≤ clampTTL (newConfig cfg) ttl ∧
    clampTTL (newConfig cfg) ttl ≤ (newConfig cfg).maxHoldTTL := by
  simp only [newConfig, clampTTL] at hok ⊢
  split_ifs at hok ⊢ <;>
    refine ⟨?_, ?_, ?_, ?_, ?_, ?_, ?_⟩ <;> intros <;> omega

/-- C7 witness: the defaulted configuration admits the amended clamp at
a 60 s request. -/
theorem clampTTL_in_range_witness :
    (newConfig ⟨0, 0⟩).minHoldTTL ≤ (newConfig ⟨0, 0⟩).maxHoldTTL ∧
    clampTTL (newConfig ⟨0, 0⟩) 60000000000 = 60000000000 :=
  ⟨by decide,
   (clampTTL_in_range ⟨0, 0⟩ 60000000000 (by decide)).2.2.1 (by decide)⟩

/-! ## C2 — nothing-to-confirm does not surface as hold-expired -/

/-- C2.  With a live hold (id 1, expires 100 > now 50) marking no
`event_seats` row, `Confirm` forwards `ErrNothingToConfirm` unmapped
instead of translating it to the hold-expired kind, and the HTTP error
mapper has no case for it — no error response is produced at all (gin
falls through to 200 with an empty body), where translating it to
hold-expired would have produced the 409 response. -/
theorem confirm_nothingToConfirm_unmapped :
    serviceConfirm 50 1 500 99 (fun j => j)
        ⟨[], [⟨1, 1, 7, 100⟩], [], []⟩ =
      (⟨[], [⟨1, 1, 7, 100⟩], [], []⟩,
        .error (.repo .nothingToConfirm)) ∧
    respondErr (.repo .nothingToConfirm) = none ∧
    SvcError.repo .nothingToConfirm ≠ SvcError.holdExpired ∧
    respondErr .holdExpired = some (409, strLit "hold expired") :=
  ⟨rfl, rfl, by decide, rfl⟩

/-! ## C9 — cancel applies no expiry guard -/

/-- C9.  `Cancel(holdID)` consults no clock: whenever a `holds` row with
the id exists — its `expires_at` being freely in the past — it succeeds,
resets every `event_seats` row carrying the hold id to available with
hold id and expiry cleared, deletes the `holds` row and returns the
hold's event id; afterwards no seat row references the hold.
`hold-not-found` is returned exactly when the row is absent. -/
theorem cancel_no_expiry_guard (holdId : Nat) (st : DBState) :
    (∀ h, st.holds.find? (fun x => x.id = holdId) = some h →
      serviceCancel holdId st =
        ({ st with
            eventSeats := st.eventSeats.map (fun r =>
              if r.holdId = some holdId then resetSeat r else r),
            holds := st.holds.filter (fun x => ¬ x.id = holdId) },
          .ok h.eventId) ∧
      ∀ r ∈ (serviceCancel holdId st).1.eventSeats,
        ¬ r.holdId = some holdId) ∧
    (st.holds.find? (fun x => x.id = holdId) = none →
      serviceCancel holdId st = (st, .error .holdNotFound)) := by
  constructor
  · intro h hfind
    have hmem := List.mem_of_find?_eq_some hfind
    have hcnt : st.holds.countP (fun x => x.id = holdId) ≠ 0 := by
      have hp := List.find?_some hfind
      have : 0 < st.holds.countP (fun x => x.id = holdId) :=
        List.countP_pos_iff.mpr ⟨h, hmem, hp⟩
      omega
    have heq : serviceCancel holdId st =
        ({ st with
            eventSeats := st.eventSeats.map (fun r =>
              if r.holdId = some holdId then resetSeat r else r),
            holds := st.holds.filter (fun x => ¬ x.id = holdId) },
          .ok h.eventId) := by
      simp only [serviceCancel, eventIDByHold, cancelHoldCore, hfind, hcnt]
      rfl
    refine ⟨heq, ?_⟩
    rw [heq]
    intro r hr
    simp only [List.mem_map] at hr
    obtain ⟨s, hs, rfl⟩ := hr
    by_cases hmatch : s.holdId = some holdId
    · simp [hmatch, resetSeat]
    · simp [hmatch]
  · intro hnone
    simp [serviceCancel, eventIDByHold, hnone]

/-- C9 witness: a hold whose expiry (5) is far in the past relative to
every clock the service could consult still cancels, clearing its seat
row. -/
theorem cancel_no_expiry_guard_witness :
    serviceCancel 4
        ⟨[⟨1, 10, .held, some 4, some 5⟩], [⟨4, 1, 7, 5⟩], [], []⟩ =
      (⟨[⟨1, 10, .available, none, none⟩], [], [], []⟩, .ok 1) :=
  ((cancel_no_expiry_guard 4
      ⟨[⟨1, 10, .held, some 4, some 5⟩], [⟨4, 1, 7, 5⟩], [], []⟩).1
    ⟨4, 1, 7, 5⟩ rfl).1

/-! ## C1 — hold atomicity -/

/-- The fresh hold id survives the expired-hold reconcile: reconciled
rows carry no hold id at all, untouched rows the old one. -/
theorem reconcile_keeps_fresh (eventId now : Int) (holdId : Nat)
    (rows : List EventSeat) (hfresh : ∀ r ∈ rows, ¬ r.holdId = some holdId) :
    ∀ r ∈ reconcileExpired eventId now rows, ¬ r.holdId = some holdId := by
  intro r hr
  simp only [reconcileExpired, List.mem_map] at hr
  obtain ⟨s, hs, rfl⟩ := hr
  by_cases hc : s.eventId = eventId ∧ s.status = .held ∧
      expElapsed s.holdExpiresAt now
  · rw [if_pos hc]; simp [resetSeat]
  · rw [if_neg hc]; exact hfresh s hs

/-- C1.  `HoldSeats` with a non-empty seat list and a fresh hold id
either succeeds, leaving exactly `len(seatIDs)` `event_seats` rows — all
with the requested event id and requested seat ids — held under the
returned hold id, with a `holds` row of that id and event inserted, or
fails with `seats-unavailable` and, the transaction rolling back, leaves
the database unchanged. -/
theorem holdSeats_atomicity (now eventId userId : Int) (seatIds : List Int)
    (ttl : Int) (holdId : Nat) (st : DBState)
    (_hne : seatIds ≠ [])
    (hfreshH : ∀ h ∈ st.holds, ¬ h.id = holdId)
    (hfreshS : ∀ r ∈ st.eventSeats, ¬ r.holdId = some holdId) :
    (∀ st' H,
      holdSeats now eventId userId seatIds ttl holdId st = (st', .ok H) →
      H = holdId ∧
      st'.eventSeats.countP (fun r => r.eventId = eventId ∧
          r.seatId ∈ seatIds ∧ r.status = .held ∧ r.holdId = some holdId) =
        seatIds.length ∧
      st'.eventSeats.countP
          (fun r => r.status = .held ∧ r.holdId = some holdId) =
        seatIds.length ∧
      ∃ h ∈ st'.holds, h.id = holdId ∧ h.eventId = eventId) ∧
    (∀ st' e,
      holdSeats now eventId userId seatIds ttl holdId st = (st', .error e) →
      e = .seatsUnavailable ∧ st' = st) := by
  have hany : (st.holds.any fun h => h.id = holdId) = false := by
    simp only [List.any_eq_false, decide_eq_true_eq]
    exact hfreshH
  have hfresh1 := reconcile_keeps_fresh eventId now holdId st.eventSeats hfreshS
  by_cases haff : (reconcileExpired eventId now st.eventSeats).countP
      (holdTarget eventId seatIds) = seatIds.length
  · have hcore : holdSeats now eventId userId seatIds ttl holdId st =
        ({ st with
            eventSeats := (reconcileExpired eventId now st.eventSeats).map
              fun r =>
                if holdTarget eventId seatIds r
                then { r with status := .held, holdId := some holdId,
                              holdExpiresAt := some (now + ttl) }
                else r,
            holds := st.holds ++ [⟨holdId, eventId, userId, now + ttl⟩] },
          .ok holdId) := by
      simp [holdSeats, holdSeatsCore, hany, haff]
    refine ⟨?_, ?_⟩
    · intro st' H heq
      rw [hcore] at heq
      injection heq with h1 h2
      injection h2 with h2
      subst h1
      refine ⟨h2.symm, ?_, ?_, ?_⟩
      · rw [List.countP_map, ← haff]
        apply List.countP_congr
        intro r hr
        by_cases hc : holdTarget eventId seatIds r = true
        · have hc' : r.eventId = eventId ∧ r.seatId ∈ seatIds ∧
              r.status = .available := by
            simpa [holdTarget] using hc
          simp only [Function.comp, hc, if_pos hc]
          simp [holdTarget, hc'.1, hc'.2.1]
        · simp only [Function.comp, if_neg hc]
          rw [eq_comm, Bool.eq_iff_iff]
          simp only [Bool.not_eq_true] at hc
          simp [hc, hfresh1 r hr]
      · rw [List.countP_map, ← haff]
        apply List.countP_congr
        intro r hr
        by_cases hc : holdTarget eventId seatIds r = true
        · simp only [Function.comp, hc, if_pos hc]
          simp
        · simp only [Function.comp, if_neg hc]
          rw [eq_comm, Bool.eq_iff_iff]
          simp only [Bool.not_eq_true] at hc
          simp [hc, hfresh1 r hr]
      · exact ⟨⟨holdId, eventId, userId, now + ttl⟩, by simp, rfl, rfl⟩
    · intro st' e heq
      rw [hcore] at heq
      injection heq with h1 h2
      exact absurd h2 (by simp)
  · have hcore : holdSeats now eventId userId seatIds ttl holdId st =
        (st, .error .seatsUnavailable) := by
      simp [holdSeats, holdSeatsCore, hany, haff]
    refine ⟨?_, ?_⟩
    · intro st' H heq
      rw [hcore] at heq
      injection heq with h1 h2
      exact absurd h2 (by simp)
    · intro st' e heq
      rw [hcore] at heq
      injection heq with h1 h2
      injection h2 with h2
      exact ⟨h2.symm, h1.symm⟩

/-- C1 witness: two available seats are taken atomically by one hold. -/
theorem holdSeats_atomicity_witness :
    (5 : Nat) = 5 ∧
    (DBState.mk
        [⟨1, 10, .held, some 5, some 60⟩, ⟨1, 11, .held, some 5, some 60⟩]
        [⟨5, 1, 7, 60⟩] [] []).eventSeats.countP
        (fun r => r.eventId = 1 ∧ r.seatId ∈ ([10, 11] : List Int) ∧
          r.status = .held ∧ r.holdId = some 5) =
      ([10, 11] : List Int).length ∧
    (DBState.mk
        [⟨1, 10, .held, some 5, some 60⟩, ⟨1, 11, .held, some 5, some 60⟩]
        [⟨5, 1, 7, 60⟩] [] []).eventSeats.countP
        (fun r => r.status = .held ∧ r.holdId = some 5) =
      ([10, 11] : List Int).length ∧
    ∃ h ∈ (DBState.mk
        [⟨1, 10, .held, some 5, some 60⟩, ⟨1, 11, .held, some 5, some 60⟩]
        [⟨5, 1, 7, 60⟩] [] []).holds, h.id = 5 ∧ h.eventId = 1 :=
  (holdSeats_atomicity 0 1 7 [10, 11] 60 5
      ⟨[⟨1, 10, .available, none, none⟩, ⟨1, 11, .available, none, none⟩],
        [], [], []⟩
      (by decide) (by simp) (by simp)).1
    ⟨[⟨1, 10, .held, some 5, some 60⟩, ⟨1, 11, .held, some 5, some 60⟩],
      [⟨5, 1, 7, 60⟩], [], []⟩ 5 rfl

/-! ## C5 — idempotent create-hold -/

/-- C5.  A first create-hold request whose idempotency key has no stored
entry acquires the lock, succeeds, stores its serialized 201 body under
the storage key and creates exactly one hold; after that, any number of
further requests with the same key and event — whatever their bodies,
clocks, rate-limit verdicts or candidate hold ids — are answered from
the stored result with the identical 201 status and byte-identical
body, and neither the Redis state nor the database changes again. -/
theorem createHold_idempotent (cfg : Config) (idemTTL : Int)
    (rl : Option (Bool × Int)) (now : Int) (userId eventId : Int)
    (seatIds : List Int) (ttlReq : Int) (idemKey : Str) (holdId : Nat)
    (kv : KV) (st : DBState) (reqs : List SubReq)
    (hk : ¬ idemKey = [])
    (hnokey : kvGet kv (keyIdemHold eventId idemKey) = none)
    (hfresh : ∀ h ∈ st.holds, ¬ h.id = holdId)
    (hsucc : (serviceCreateHold cfg rl now userId eventId seatIds ttlReq
        holdId st).2 = .ok holdId) :
    (handleCreateHold cfg idemTTL rl now userId eventId seatIds ttlReq
        idemKey holdId kv st).1 = ⟨201, serializeHoldResp holdId⟩ ∧
    (handleCreateHold cfg idemTTL rl now userId eventId seatIds ttlReq
        idemKey holdId kv st).2.2.holds.countP (fun h => h.id = holdId) =
      1 ∧
    runRequests cfg idemTTL eventId idemKey reqs
        (handleCreateHold cfg idemTTL rl now userId eventId seatIds ttlReq
          idemKey holdId kv st).2.1
        (handleCreateHold cfg idemTTL rl now userId eventId seatIds ttlReq
          idemKey holdId kv st).2.2 =
      ((handleCreateHold cfg idemTTL rl now userId eventId seatIds ttlReq
          idemKey holdId kv st).2.1,
       (handleCreateHold cfg idemTTL rl now userId eventId seatIds ttlReq
          idemKey holdId kv st).2.2,
       reqs.map fun _ => ⟨201, serializeHoldResp holdId⟩) := by
  obtain ⟨st1, hpair, hcore⟩ := serviceCreateHold_ok_core cfg rl now userId
    eventId seatIds ttlReq holdId st hsucc
  have hgr := getResult_none kv (keyIdemHold eventId idemKey) hnokey
  have hlock : acquireLock kv (keyIdemHold eventId idemKey) 60000000000 =
      (true, kvSet kv (keyIdemHold eventId idemKey) (strLit "LOCK")
        60000000000) := by
    simp only [acquireLock, kvSetNX, hnokey]
  have hhandle : handleCreateHold cfg idemTTL rl now userId eventId seatIds
      ttlReq idemKey holdId kv st =
      (⟨201, serializeHoldResp holdId⟩,
       saveResult
         (kvSet kv (keyIdemHold eventId idemKey) (strLit "LOCK")
           60000000000)
         (keyIdemHold eventId idemKey) (serializeHoldResp holdId) idemTTL,
       st1) := by
    simp only [handleCreateHold, if_neg hk, hgr, hlock, hpair]
    rw [if_pos trivial]
  refine ⟨by rw [hhandle], ?_, ?_⟩
  · rw [hhandle]
    have hholds := holdSeatsCore_ok_holds now eventId userId seatIds
      (clampTTL cfg ttlReq) holdId st st1 holdId hcore
    have h0 : st.holds.countP (fun h => h.id = holdId) = 0 := by
      rw [List.countP_eq_zero]
      simpa using hfresh
    rw [hholds, List.countP_append, h0]
    simp
  · rw [hhandle]
    exact runRequests_cached cfg idemTTL eventId idemKey
      (serializeHoldResp holdId) _ st1 hk (getResult_saved _ _ _ _) reqs

/-- C5 witness: a concrete first request creating hold 5 on event 1,
followed by a retry with a different body and hold id candidate. -/
theorem createHold_idempotent_witness :
    (handleCreateHold ⟨15000000000, 300000000000⟩ 7200000000000 none 0 7 1
        [10] 60000000000 (strLit "abc") 5 []
        ⟨[⟨1, 10, .available, none, none⟩], [], [], []⟩).1 =
      ⟨201, serializeHoldResp 5⟩ ∧
    (handleCreateHold ⟨15000000000, 300000000000⟩ 7200000000000 none 0 7 1
        [10] 60000000000 (strLit "abc") 5 []
        ⟨[⟨1, 10, .available, none, none⟩], [], [], []⟩).2.2.holds.countP
        (fun h => h.id = 5) = 1 ∧
    runRequests ⟨15000000000, 300000000000⟩ 7200000000000 1 (strLit "abc")
        [⟨8, [10, 11], 30000000000, 9, 1000, none⟩]
        (handleCreateHold ⟨15000000000, 300000000000⟩ 7200000000000 none 0
          7 1 [10] 60000000000 (strLit "abc") 5 []
          ⟨[⟨1, 10, .available, none, none⟩], [], [], []⟩).2.1
        (handleCreateHold ⟨15000000000, 300000000000⟩ 7200000000000 none 0
          7 1 [10] 60000000000 (strLit "abc") 5 []
          ⟨[⟨1, 10, .available, none, none⟩], [], [], []⟩).2.2 =
      ((handleCreateHold ⟨15000000000, 300000000000⟩ 7200000000000 none 0
          7 1 [10] 60000000000 (strLit "abc") 5 []
          ⟨[⟨1, 10, .available, none, none⟩], [], [], []⟩).2.1,
       (handleCreateHold ⟨15000000000, 300000000000⟩ 7200000000000 none 0
          7 1 [10] 60000000000 (strLit "abc") 5 []
          ⟨[⟨1, 10, .available, none, none⟩], [], [], []⟩).2.2,
       ([⟨8, [10, 11], 30000000000, 9, 1000, none⟩] : List SubReq).map
         fun _ => ⟨201, serializeHoldResp 5⟩) :=
  createHold_idempotent ⟨15000000000, 300000000000⟩ 7200000000000 none 0 7
    1 [10] 60000000000 (strLit "abc") 5 []
    ⟨[⟨1, 10, .available, none, none⟩], [], [], []⟩
    [⟨8, [10, 11], 30000000000, 9, 1000, none⟩]
    (by decide) rfl (by simp) rfl

/-! ## C10 — GetResult never serves a lock -/

/-- C10.  `GetResult` reports a stored result exactly when the stored
value begins with `RES:`; an absent key and the `LOCK` sentinel written
by `AcquireLock` both report `found = false`, so an in-progress lock is
never served as a cached response. -/
theorem getResult_requires_res_tag (kv : KV) (key : Str) (lockTTL : Int) :
    ((getResult kv key).2 = true ↔
      ∃ v, kvGet kv key = some v ∧ (strLit "RES:").isPrefixOf v = true) ∧
    (kvGet kv key = none → getResult kv key = ([], false)) ∧
    (kvGet kv key = some (strLit "LOCK") → getResult kv key = ([], false)) ∧
    (kvGet kv key = none →
      getResult (acquireLock kv key lockTTL).2 key = ([], false)) := by
  refine ⟨?_, ?_, ?_, ?_⟩
  · constructor
    · intro hfound
      cases hv : kvGet kv key with
      | none => simp [getResult, hv] at hfound
      | some v =>
        by_cases hpre : (strLit "RES:").isPrefixOf v = true
        · exact ⟨v, rfl, hpre⟩
        · simp only [getResult, hv] at hfound
          rw [if_neg hpre] at hfound
          simp at hfound
    · rintro ⟨v, hv, hpre⟩
      simp only [getResult, hv]
      rw [if_pos hpre]
  · intro hv
    simp only [getResult, hv]
  · intro hv
    simp only [getResult, hv]
    decide
  · intro hv
    simp only [acquireLock, kvSetNX, hv]
    simp only [getResult, kvGet_kvSet_same]
    decide

/-- C10 witness at a concrete store holding one result and one lock. -/
theorem getResult_requires_res_tag_witness :
    getResult [⟨strLit "k1", strLit "LOCK", 60⟩] (strLit "k1") =
      ([], false) ∧
    getResult (acquireLock [] (strLit "k2") 60).2 (strLit "k2") =
      ([], false) :=
  ⟨(getResult_requires_res_tag [⟨strLit "k1", strLit "LOCK", 60⟩]
      (strLit "k1") 60).2.2.1 rfl,
   (getResult_requires_res_tag [] (strLit "k2") 60).2.2.2 rfl⟩

/-! ## C6 — read-through cache contract -/

/-- C6.  On a cache miss `GetOrSetJSON` runs the loader: a loader error
is propagated with no cache write; a loader success returns the value,
writing its encoding under the key with the requested TTL, and a failing
cache write is swallowed — the value is still returned with the cache
left unwritten. -/
theorem getOrSetJSON_contract (T : Type) (dec : Str → Option T)
    (enc : T → Str) (kv : KV) (key : Str) (ttl : Int) (le : Str) (v : T)
    (setFails : Bool) (hmiss : kvGet kv key = none) :
    getOrSetJSON T dec enc kv key ttl (.error le) setFails =
      (kv, .error (.loaderFailed le)) ∧
    (getOrSetJSON T dec enc kv key ttl (.ok v) setFails).2 = .ok v ∧
    (setFails = false →
      (getOrSetJSON T dec enc kv key ttl (.ok v) setFails).1 =
          kvSet kv key (enc v) ttl ∧
        kvGet (getOrSetJSON T dec enc kv key ttl (.ok v) setFails).1 key =
          some (enc v) ∧
        kvGetTTL (getOrSetJSON T dec enc kv key ttl (.ok v) setFails).1 key =
          some ttl) ∧
    (setFails = true →
      (getOrSetJSON T dec enc kv key ttl (.ok v) setFails).1 = kv) := by
  refine ⟨?_, ?_, ?_, ?_⟩ <;>
    simp [getOrSetJSON, getJSONAs, hmiss, kvGet_kvSet_same,
      kvGetTTL_kvSet_same] <;>
    intro hf <;> simp [hf, kvGet_kvSet_same, kvGetTTL_kvSet_same]

/-- C6 witness: a failing loader on a concrete miss propagates its
error and writes nothing. -/
theorem getOrSetJSON_contract_witness :
    getOrSetJSON Nat (fun _ => none) (fun n => strLit (toString n)) []
        (strLit "k") 5 (.error (strLit "boom")) false =
      ([], .error (.loaderFailed (strLit "boom"))) :=
  (getOrSetJSON_contract Nat (fun _ => none) (fun n => strLit (toString n))
    [] (strLit "k") 5 (strLit "boom") 7 false rfl).1

/-! ## C8 — ETag behaviour of the cached read endpoints -/

/-- C8.  For every marshalled body `B` the weak-tagged response carries
`ETag: W/"<lowercase hex sha-256 of B>"`; when `If-None-Match` equals
exactly that tag the response is 304 Not Modified with no body,
otherwise the given status with body `B` is sent. -/
theorem etag_weak_roundtrip (status : Nat) (body : List Nat)
    (cc inm : Str) :
    (writeJSONWithCache status body cc true inm).etag =
      strLit "W/\"" ++ hexOfBytes (sha256 body) ++ strLit "\"" ∧
    (inm = (writeJSONWithCache status body cc true inm).etag →
      (writeJSONWithCache status body cc true inm).status = 304 ∧
      (writeJSONWithCache status body cc true inm).body = none) ∧
    (inm ≠ (writeJSONWithCache status body cc true inm).etag →
      (writeJSONWithCache status body cc true inm).status = status ∧
      (writeJSONWithCache status body cc true inm).body = some body) := by
  have haux : strLit "W/" ++ (strLit "\"" ++ hexOfBytes (sha256 body) ++
      strLit "\"") =
      strLit "W/\"" ++ hexOfBytes (sha256 body) ++ strLit "\"" := by
    rw [← List.append_assoc, ← List.append_assoc,
      show strLit "W/" ++ strLit "\"" = strLit "W/\"" from rfl]
  have hunf : writeJSONWithCache status body cc true inm =
      (if inm = strLit "W/" ++ (strLit "\"" ++ hexOfBytes (sha256 body) ++
          strLit "\"")
       then ⟨strLit "W/" ++ (strLit "\"" ++ hexOfBytes (sha256 body) ++
               strLit "\""),
             (if cc = [] then none else some cc), 304, none⟩
       else ⟨strLit "W/" ++ (strLit "\"" ++ hexOfBytes (sha256 body) ++
               strLit "\""),
             (if cc = [] then none else some cc), status, some body⟩) := by
    rfl
  rw [hunf]
  by_cases hm : inm = strLit "W/" ++ (strLit "\"" ++
      hexOfBytes (sha256 body) ++ strLit "\"")
  · rw [if_pos hm]
    exact ⟨haux, fun _ => ⟨rfl, rfl⟩, fun hne => absurd hm hne⟩
  · rw [if_neg hm]
    exact ⟨haux, fun heq => absurd heq hm, fun _ => ⟨rfl, rfl⟩⟩

set_option maxRecDepth 4000 in
/-- C8 witness: the body `"abc"` hashes to the standard SHA-256 test
vector, and a request presenting exactly that weak tag receives 304
with no body. -/
theorem etag_weak_roundtrip_witness :
    (writeJSONWithCache 200 [97, 98, 99] [] true
        (strLit
          "W/\"ba7816bf8f01cfea414140de5dae2223b00361a396177a9cb410ff61f20015ad\"")).status =
      304 ∧
    (writeJSONWithCache 200 [97, 98, 99] [] true
        (strLit
          "W/\"ba7816bf8f01cfea414140de5dae2223b00361a396177a9cb410ff61f20015ad\"")).body =
      none :=
  (etag_weak_roundtrip 200 [97, 98, 99] []
      (strLit
        "W/\"ba7816bf8f01cfea414140de5dae2223b00361a396177a9cb410ff61f20015ad\"")).2.1
    (by decide)

end TixGo
